import Mathlib

/-
Verification of the news_aggregator cross-source deduplication core.

Shallow embedding of:
  - src/deduplicator.py : cosine_cluster, deduplicate, merge_all_clusters
  - src/digest.py       : load_state, expected-papers / is_complete logic
  - src/telegram_downloader.py : EXPECTED_NEWSPAPERS catalog

Python dicts with optional keys are embedded as structures with Option
fields; `d.get(k, default)` becomes `field.getD default`; `d[k]` on a
possibly-absent key is a KeyError, modelled by Option-valued results
(none = uncaught exception).  The TF-IDF vectorisation is abstracted to a
given similarity function (the spec allows any vector-space model that
yields a pairwise similarity matrix); the clustering loop itself, which is
what the claims are about, is embedded verbatim.  The Gemini model object
is abstracted to a call-indexed oracle function; each occurrence of
`model.generate_content` consumes one call index, so the number of
outbound requests of a run is observable in the embedding.
-/

namespace NewsAgg

/-- A source-attribution record, deduplicator.py lines 88-93:
`{"newspaper": ..., "pdf_filename": ..., "page": ..., "telegram_url": ...}`. -/
structure Source where
  newspaper : String
  pdf_filename : String
  page : Nat
  telegram_url : String
deriving DecidableEq, Repr

/-- An article dict.  `headline` and `summary` are always present (they are
accessed with `a["headline"]` / `a["summary"]`); every other key is optional
and read with `.get(key, default)` in the Python code. -/
structure Article where
  headline : String
  summary : String
  category : Option String := none
  newspaper : Option String := none
  pdf_filename : Option String := none
  page : Option Nat := none
  telegram_url : Option String := none
  sources : Option (List Source) := none
deriving DecidableEq, Repr

/-- The stripped-down member record sent to the merge call,
deduplicator.py line 108: `{"headline": ..., "summary": ..., "newspaper": ...}`. -/
structure MiniArticle where
  headline : String
  summary : String
  newspaper : String
deriving DecidableEq, Repr

/-- One entry of `multi_source_clusters`, deduplicator.py lines 104-111. -/
structure ClusterRec where
  category : String
  sources : List Source
  articles : List MiniArticle
deriving DecidableEq, Repr

/-- The default similarity threshold of `cosine_cluster`, 0.35 = 7/20
(stored in lowest terms so that kernel reduction works on comparisons). -/
def defaultThreshold : ℚ := ⟨7, 20, by norm_num, by norm_num⟩

/-- The greedy anchor-based clustering loop of `cosine_cluster`,
deduplicator.py lines 33-45.  The first list argument is the sub-range of
indices still to be scanned (initially `range n`); `visited` collects the
indices already assigned to a cluster.  An unvisited index `i` opens a new
cluster and absorbs every later unvisited `j` with `sim i j ≥ tau`. -/
def clusterGreedy (sim : Nat → Nat → ℚ) (tau : ℚ) :
    List Nat → List Nat → List (List Nat)
  | [], _ => []
  | i :: rest, visited =>
    if i ∈ visited then clusterGreedy sim tau rest visited
    else
      let cluster := i :: rest.filter (fun j => decide (j ∉ visited) && decide (tau ≤ sim i j))
      cluster :: clusterGreedy sim tau rest (visited ++ cluster)

/-- `cosine_cluster`, deduplicator.py lines 19-49.  `sklearn_available`
models the `try: import sklearn ... except ImportError` branch: when the
vector-similarity capability is unavailable every article becomes its own
singleton cluster. -/
def cosine_cluster (sklearn_available : Bool) (sim : Nat → Nat → ℚ)
    (tau : ℚ) (n : Nat) : List (List Nat) :=
  if sklearn_available then clusterGreedy sim tau (List.range n) []
  else (List.range n).map (fun i => [i])

/-- `art.get("category", "India")`, deduplicator.py line 71. -/
def catOf (a : Article) : String := a.category.getD "India"

/-- `art.get("newspaper", "")`, deduplicator.py line 86. -/
def nameOf (a : Article) : String := a.newspaper.getD ""

/-- First-occurrence-order key list: the iteration order of the
`defaultdict` built on deduplicator.py lines 69-71 (CPython dicts iterate
keys in insertion order, i.e. first-occurrence order). -/
def firstSeen : List String → List String → List String
  | [], _ => []
  | c :: rest, seen =>
    if c ∈ seen then firstSeen rest seen else c :: firstSeen rest (c :: seen)

/-- The categories of `by_category`, in iteration order. -/
def categoriesOf (arts : List Article) : List String :=
  firstSeen (arts.map catOf) []

/-- The value list `by_category[c]`: the articles of category `c`
in original pool order. -/
def articlesInCat (arts : List Article) (c : String) : List Article :=
  arts.filter (fun a => decide (catOf a = c))

/-- The Source record built from one article, deduplicator.py lines 88-93. -/
def mkSource (a : Article) : Source :=
  { newspaper := nameOf a
    pdf_filename := a.pdf_filename.getD ""
    page := a.page.getD 1
    telegram_url := a.telegram_url.getD "" }

/-- The source-list loop of deduplicator.py lines 83-94: one Source per
distinct newspaper name, first occurrence wins. -/
def buildSources : List Article → List String → List Source
  | [], _ => []
  | a :: rest, seen =>
    if nameOf a ∈ seen then buildSources rest seen
    else mkSource a :: buildSources rest (nameOf a :: seen)

/-- The member record of deduplicator.py line 108.  `a["newspaper"]` is a
direct subscript: if the key is absent (a re-fed merged article) Python
raises KeyError, modelled by `none`. -/
def miniOf (a : Article) : Option MiniArticle :=
  a.newspaper.map (fun p => ⟨a.headline, a.summary, p⟩)

/-- The list comprehension of deduplicator.py lines 107-110, which builds
the member records of a multi-source cluster; evaluation stops with a
KeyError (`none`) at the first member lacking the newspaper key. -/
def minisOf : List Article → Option (List MiniArticle)
  | [] => some []
  | a :: rest =>
    match miniOf a, minisOf rest with
    | some m, some ms => some (m :: ms)
    | _, _ => none

/-- Processing of one cluster inside `deduplicate`, lines 80-111: a
one-member cluster becomes a passthrough article (sources attached,
newspaper and pdf_filename keys popped); any other cluster becomes a
`ClusterRec` bound for the merge call (KeyError if a member lacks the
newspaper key). -/
def processCluster (category : String) (cluster_arts : List Article) :
    Option (Article ⊕ ClusterRec) :=
  if cluster_arts.length = 1 then
    let a := cluster_arts.getD 0 { headline := "", summary := "" }
    some (Sum.inl { a with sources := some (buildSources cluster_arts []),
                           newspaper := none, pdf_filename := none })
  else
    match minisOf cluster_arts with
    | none => none
    | some minis => some (Sum.inr ⟨category, buildSources cluster_arts [], minis⟩)

/-- The cluster loop of deduplicate, lines 79-111, over one category's
cluster list: accumulates passthrough singles and merge-bound cluster
records in cluster order. -/
def processClusters (category : String) (catArts : List Article) :
    List (List Nat) → Option (List Article × List ClusterRec)
  | [] => some ([], [])
  | ci :: rest =>
    match processCluster category (ci.map (fun i => catArts.getD i { headline := "", summary := "" })),
          processClusters category catArts rest with
    | some (Sum.inl a), some (s, m) => some (a :: s, m)
    | some (Sum.inr r), some (s, m) => some (s, r :: m)
    | _, _ => none

/-- Stage 1 of `deduplicate` for one category: cluster (with the default
threshold, as `cosine_cluster(articles)` is called with no threshold
argument) and process every cluster. -/
def stage1Category (avail : Bool) (sim : List Article → Nat → Nat → ℚ)
    (category : String) (catArts : List Article) :
    Option (List Article × List ClusterRec) :=
  processClusters category catArts
    (cosine_cluster avail (sim catArts) defaultThreshold catArts.length)

/-- Stage 1 of `deduplicate` over a list of categories, accumulating the
global `single_source` and `multi_source_clusters` lists in category
iteration order. -/
def stage1Cats (avail : Bool) (sim : List Article → Nat → Nat → ℚ)
    (arts : List Article) : List String → Option (List Article × List ClusterRec)
  | [] => some ([], [])
  | c :: cs =>
    match stage1Category avail sim c (articlesInCat arts c),
          stage1Cats avail sim arts cs with
    | some (s1, m1), some (s2, m2) => some (s1 ++ s2, m1 ++ m2)
    | _, _ => none

/-- Stage 1 of `deduplicate` (lines 69-113): grouping by category,
clustering, source attribution and the single/multi split. -/
def stage1 (avail : Bool) (sim : List Article → Nat → Nat → ℚ)
    (arts : List Article) : Option (List Article × List ClusterRec) :=
  stage1Cats avail sim arts (categoriesOf arts)

/-- The per-cluster fallback of merge_all_clusters, lines 167-172:
`max(cluster["articles"], key=lambda a: len(a.get("summary", "")))` —
Python max keeps the first of several maximal elements (strict `>`
replacement). -/
def bestBySummary : MiniArticle → List MiniArticle → MiniArticle
  | b, [] => b
  | b, a :: rest => bestBySummary (if b.summary.length < a.summary.length then a else b) rest

/-- Fallback output for one cluster: the longest-summary member's headline
and summary, the cluster's precomputed sources, the newspaper key popped.
No category key is written in this path.  (On an empty member list Python's
`max` would raise; that case is unreachable from the pipeline.) -/
def fallbackCluster (c : ClusterRec) : Article :=
  match c.articles with
  | [] => { headline := "", summary := "" }
  | a :: rest =>
    let best := bestBySummary a rest
    { headline := best.headline, summary := best.summary, sources := some c.sources }

/-- The source-attachment loop of merge_all_clusters lines 156-159:
`for i, merged_art in enumerate(merged_list): merged_art["sources"] =
clusters[i]["sources"]`.  If the parsed response is longer than the cluster
list, `clusters[i]` raises IndexError (`none` here, caught by the `except`);
if it is shorter the loop simply stops and the remaining clusters are
dropped. -/
def attachSources : List Article → List ClusterRec → Option (List Article)
  | [], _ => some []
  | _ :: _, [] => none
  | m :: ms, c :: cs =>
    (attachSources ms cs).map (fun r => { m with sources := some c.sources } :: r)

/-- `merge_all_clusters`, lines 125-173.  `model k clusters` is the
(call-indexed) outcome of `model.generate_content` followed by the markdown
strip and `json.loads`: `.error` for a transport error or unparseable
response, `.ok l` for a successfully parsed article array.  Exactly one
call index is consumed per invocation.  Any exception inside the `try`
block (including the IndexError of the attachment loop) selects the
per-cluster fallback. -/
def merge_all_clusters (model : Nat → List ClusterRec → Except Unit (List Article))
    (calls : Nat) (clusters : List ClusterRec) : List Article × Nat :=
  let result :=
    match model calls clusters with
    | Except.error _ => clusters.map fallbackCluster
    | Except.ok merged_list =>
      match attachSources merged_list clusters with
      | some r => r
      | none => clusters.map fallbackCluster
  (result, calls + 1)

/-- `deduplicate`, lines 52-122.  Returns the final article list (`none`
when stage 1 raises KeyError) together with the number of
`model.generate_content` invocations made.  Stage 2 runs only when
`multi_source_clusters` is non-empty. -/
def deduplicate (avail : Bool) (sim : List Article → Nat → Nat → ℚ)
    (model : Nat → List ClusterRec → Except Unit (List Article))
    (all_articles : List Article) : Option (List Article) × Nat :=
  match stage1 avail sim all_articles with
  | none => (none, 0)
  | some (single_source, multis) =>
    if multis.isEmpty then (some single_source, 0)
    else
      let (merged, calls) := merge_all_clusters model 0 multis
      (some (single_source ++ merged), calls)

/-- The fixed source catalog, telegram_downloader.py lines 38-48. -/
def EXPECTED_NEWSPAPERS : List String :=
  ["The Hindu", "Indian Express", "Financial Express", "Times of India",
   "Hindustan Times", "Economic Times", "Business Line", "Business Standard", "Mint"]

/-- Papers not published on Sundays, digest.py line 51. -/
def SUNDAY_SKIP : List String := ["Mint", "Business Standard"]

/-- `expected_papers`, digest.py lines 103-106. -/
def expected_papers (is_sunday : Bool) : List String :=
  if is_sunday then EXPECTED_NEWSPAPERS.filter (fun p => decide (p ∉ SUNDAY_SKIP))
  else EXPECTED_NEWSPAPERS

/-- `is_complete = set(updated_done) >= set(expected_papers)`,
digest.py line 183. -/
def is_complete (updated_done : List String) (expected : List String) : Bool :=
  expected.all (fun p => decide (p ∈ updated_done))

/-- The persisted state dict, digest.py lines 78-84.  `date` is read with
`.get("date")`, hence Option. -/
structure DigestState where
  date : Option String
  downloaded : List String
  articles : List Article
  newspapers : List String
  is_complete : Bool
deriving DecidableEq, Repr

/-- The fresh state built at digest.py lines 78-84. -/
def freshState (today_str : String) : DigestState :=
  ⟨some today_str, [], [], [], false⟩

/-- `load_state`, digest.py lines 66-84.  `stored = none` models a missing
state file, `stored = some none` a file whose read or JSON parse raises
(the bare `except: pass`), `stored = some (some s)` a successfully parsed
state. -/
def load_state (stored : Option (Option DigestState)) (today_str : String) :
    DigestState :=
  match stored with
  | some (some s) => if s.date = some today_str then s else freshState today_str
  | _ => freshState today_str

-- Concrete instances used by the counterexample and evaluation theorems.

/-- The stored Source entry of the merged article of the incremental
re-merge scenario. -/
def srcX : Source := ⟨"X", "x.pdf", 1, "ux"⟩

/-- A previously-merged article as persisted by a successful pass: headline,
summary and category from the merge response, a sources list, and no
newspaper or pdf_filename keys (they were popped). -/
def M1 : Article :=
  { headline := "h1", summary := "s1", category := some "India", sources := some [srcX] }

/-- A freshly extracted article from source Y. -/
def newY : Article :=
  { headline := "h2", summary := "s2", category := some "India", newspaper := some "Y",
    pdf_filename := some "y.pdf", page := some 2, telegram_url := some "uy" }

/-- A similarity oracle that reports every pair as identical. -/
def simOne : List Article → Nat → Nat → ℚ := fun _ _ _ => 1

/-- A merge oracle whose parsed response is always the empty JSON array. -/
def modelOkEmpty : Nat → List ClusterRec → Except Unit (List Article) :=
  fun _ _ => Except.ok []

/-- A similarity matrix whose off-anchor pair (1,2) is dissimilar while both
are similar to article 0. -/
def simNT : Nat → Nat → ℚ :=
  fun i j => if i = 0 ∨ j = 0 then ⟨2, 5, by norm_num, by norm_num⟩ else 0

def sA : Source := ⟨"A", "a.pdf", 1, "ua"⟩

def sB : Source := ⟨"B", "b.pdf", 2, "ub"⟩

/-- Two-member cluster records as submitted to the merge call. -/
def c1R : ClusterRec := ⟨"India", [sA], [⟨"h", "s", "A"⟩, ⟨"h2", "s2", "B"⟩]⟩

def c2R : ClusterRec := ⟨"India", [sB], [⟨"h3", "s3", "B"⟩, ⟨"h4", "s4", "A"⟩]⟩

/-- A parsed merge-response element. -/
def respArt : Article := { headline := "RH", summary := "RS", category := some "India" }

/-- A merge oracle returning a parsed array of length 1, one element short. -/
def modelShort : Nat → List ClusterRec → Except Unit (List Article) :=
  fun _ _ => Except.ok [respArt]

/-- A merge oracle returning a parsed array of length 2, one element long. -/
def modelLong : Nat → List ClusterRec → Except Unit (List Article) :=
  fun _ _ => Except.ok [respArt, respArt]

/-- A merge oracle whose call always fails (transport error or unparseable
response text). -/
def modelErr : Nat → List ClusterRec → Except Unit (List Article) :=
  fun _ _ => Except.error ()

/-- A Business cluster whose member summaries have lengths 4, 8 and 2. -/
def cB : ClusterRec :=
  ⟨"Business", [sA, sB],
   [⟨"H40", "aaaa", "A"⟩, ⟨"H85", "bbbbbbbb", "B"⟩, ⟨"H12", "cc", "A"⟩]⟩

/-- A cluster with two equal-length summaries, to exhibit the tie-break. -/
def cTie : ClusterRec := ⟨"Business", [sB], [⟨"T1", "xxxx", "B"⟩, ⟨"T2", "yyyy", "A"⟩]⟩

/-- Articles from sources [A, B, A, C]; the two A members differ in every
other field. -/
def aA1 : Article :=
  { headline := "ha1", summary := "sa1", newspaper := some "A",
    pdf_filename := some "a1.pdf", page := some 1, telegram_url := some "ta1" }

def bB : Article :=
  { headline := "hb", summary := "sb", newspaper := some "B",
    pdf_filename := some "b.pdf", page := some 2, telegram_url := some "tb" }

def aA2 : Article :=
  { headline := "ha2", summary := "sa2", newspaper := some "A",
    pdf_filename := some "a2.pdf", page := some 9, telegram_url := some "ta2" }

def cC : Article :=
  { headline := "hc", summary := "sc", newspaper := some "C",
    pdf_filename := some "c.pdf", page := some 3, telegram_url := some "tc" }

/-- Articles with no category key. -/
def gA : Article := { headline := "g", summary := "s", newspaper := some "A" }

def noCat : Article := { headline := "n", summary := "ns", newspaper := some "N" }

/-- The merge-bound record produced from clustering [gA, noCat]. -/
def rGN : ClusterRec :=
  ⟨"India", [mkSource gA, mkSource noCat], [⟨"g", "s", "A"⟩, ⟨"n", "ns", "N"⟩]⟩

/-- A persisted state from the previous day with non-trivial contents. -/
def staleState : DigestState :=
  ⟨some "2026-10-11", ["Mint"], [M1], ["Mint"], true⟩

/-- Every member of a greedy cluster other than the head passed the
similarity test against the head (the anchor). -/
theorem clusterGreedy_anchor (sim : Nat → Nat → ℚ) (tau : ℚ) :
    ∀ (l visited c : List Nat), c ∈ clusterGreedy sim tau l visited →
      ∀ j ∈ c.tail, tau ≤ sim (c.headD 0) j := by
  intro l
  induction l with
  | nil => intro visited c hc; simp [clusterGreedy] at hc
  | cons i rest ih =>
    intro visited c hc j hj
    by_cases hiv : i ∈ visited
    · rw [clusterGreedy, if_pos hiv] at hc
      exact ih visited c hc j hj
    · rw [clusterGreedy, if_neg hiv] at hc
      rcases List.mem_cons.mp hc with hc | hc
      · subst hc
        simp only [List.tail_cons] at hj
        have hp := (List.mem_filter.mp hj).2
        simp only [Bool.and_eq_true, decide_eq_true_eq] at hp
        simpa using hp.2
      · exact ih _ c hc j hj

/-- An index appears in the flattened greedy clustering iff it is a
remaining index that was not yet assigned. -/
theorem clusterGreedy_flatten_mem (sim : Nat → Nat → ℚ) (tau : ℚ) :
    ∀ (l visited : List Nat) (x : Nat),
      x ∈ (clusterGreedy sim tau l visited).flatten ↔ x ∈ l ∧ x ∉ visited := by
  intro l
  induction l with
  | nil => intro visited x; simp [clusterGreedy]
  | cons i rest ih =>
    intro visited x
    by_cases hiv : i ∈ visited
    · rw [clusterGreedy, if_pos hiv, ih]
      constructor
      · rintro ⟨hx, hv⟩
        exact ⟨List.mem_cons_of_mem _ hx, hv⟩
      · rintro ⟨hx, hv⟩
        rcases List.mem_cons.mp hx with rfl | hx
        · exact absurd hiv hv
        · exact ⟨hx, hv⟩
    · rw [clusterGreedy, if_neg hiv]
      simp only [List.flatten_cons, List.mem_append, ih]
      constructor
      · rintro (hx | ⟨hx, hv⟩)
        · rcases List.mem_cons.mp hx with rfl | hx
          · exact ⟨List.mem_cons_self _ _, hiv⟩
          · have hp := List.mem_filter.mp hx
            have hb := hp.2
            simp only [Bool.and_eq_true, decide_eq_true_eq] at hb
            exact ⟨List.mem_cons_of_mem _ hp.1, hb.1⟩
        · exact ⟨List.mem_cons_of_mem _ hx, fun hmem => hv (Or.inl hmem)⟩
      · rintro ⟨hx, hv⟩
        rcases List.mem_cons.mp hx with rfl | hx
        · exact Or.inl (List.mem_cons_self _ _)
        · by_cases hc : x ∈ i :: rest.filter (fun j => decide (j ∉ visited) && decide (tau ≤ sim i j))
          · exact Or.inl hc
          · refine Or.inr ⟨hx, fun hmem => ?_⟩
            rcases hmem with h | h
            · exact hv h
            · exact hc h

/-- The flattened greedy clustering has no duplicate index when the
remaining index list has none. -/
theorem clusterGreedy_flatten_nodup (sim : Nat → Nat → ℚ) (tau : ℚ) :
    ∀ (l visited : List Nat), l.Nodup → (clusterGreedy sim tau l visited).flatten.Nodup := by
  intro l
  induction l with
  | nil => intro visited _; simp [clusterGreedy]
  | cons i rest ih =>
    intro visited hnd
    have hi : i ∉ rest := (List.nodup_cons.mp hnd).1
    have hrest : rest.Nodup := (List.nodup_cons.mp hnd).2
    by_cases hiv : i ∈ visited
    · rw [clusterGreedy, if_pos hiv]
      exact ih visited hrest
    · rw [clusterGreedy, if_neg hiv]
      rw [List.flatten_cons, List.nodup_append]
      refine ⟨?_, ih _ hrest, ?_⟩
      · rw [List.nodup_cons]
        exact ⟨fun hmem => hi (List.mem_filter.mp hmem).1, hrest.filter _⟩
      · intro x hx hx'
        have hmem := (clusterGreedy_flatten_mem sim tau rest _ x).mp hx'
        exact hmem.2 (List.mem_append.mpr (Or.inr hx))

/-- Greedy clusters are never empty: each one starts with its anchor. -/
theorem clusterGreedy_ne_nil (sim : Nat → Nat → ℚ) (tau : ℚ) :
    ∀ (l visited c : List Nat), c ∈ clusterGreedy sim tau l visited → c ≠ [] := by
  intro l
  induction l with
  | nil => intro visited c hc; simp [clusterGreedy] at hc
  | cons i rest ih =>
    intro visited c hc
    by_cases hiv : i ∈ visited
    · rw [clusterGreedy, if_pos hiv] at hc
      exact ih _ c hc
    · rw [clusterGreedy, if_neg hiv] at hc
      rcases List.mem_cons.mp hc with rfl | hc
      · simp
      · exact ih _ c hc

/-- Clusters produced by `cosine_cluster` are never empty, in both the
similarity path and the degraded singleton path. -/
theorem cosine_cluster_ne_nil (avail : Bool) (sim : Nat → Nat → ℚ) (tau : ℚ)
    (n : Nat) (c : List Nat) (hc : c ∈ cosine_cluster avail sim tau n) : c ≠ [] := by
  cases avail with
  | true => exact clusterGreedy_ne_nil sim tau _ _ c (by simpa [cosine_cluster] using hc)
  | false =>
    simp only [cosine_cluster, Bool.false_eq_true, if_false, List.mem_map] at hc
    obtain ⟨i, _, rfl⟩ := hc
    simp

theorem flatten_map_singleton : ∀ (l : List Nat), (l.map (fun i => [i])).flatten = l
  | [] => rfl
  | a :: l => by simp [flatten_map_singleton l]

/-- Every index below `n` lands in exactly one cluster of `cosine_cluster`,
whichever path is taken. -/
theorem cosine_cluster_count (avail : Bool) (sim : Nat → Nat → ℚ) (tau : ℚ)
    (n x : Nat) (hx : x < n) :
    (cosine_cluster avail sim tau n).flatten.count x = 1 := by
  cases avail with
  | true =>
    have hmem : x ∈ (clusterGreedy sim tau (List.range n) []).flatten :=
      (clusterGreedy_flatten_mem sim tau (List.range n) [] x).mpr
        ⟨List.mem_range.mpr hx, by simp⟩
    have hnd := clusterGreedy_flatten_nodup sim tau (List.range n) [] (List.nodup_range n)
    simpa [cosine_cluster] using List.count_eq_one_of_mem hnd hmem
  | false =>
    rw [cosine_cluster]
    simp only [Bool.false_eq_true, if_false, flatten_map_singleton]
    exact List.count_eq_one_of_mem (List.nodup_range n) (List.mem_range.mpr hx)

/-- The newspaper names of the built source list are exactly the member
names deduplicated in first-occurrence order. -/
theorem buildSources_names : ∀ (arts : List Article) (seen : List String),
    (buildSources arts seen).map Source.newspaper = firstSeen (arts.map nameOf) seen := by
  intro arts
  induction arts with
  | nil => intro seen; rfl
  | cons a rest ih =>
    intro seen
    by_cases h : nameOf a ∈ seen
    · rw [buildSources, if_pos h, List.map_cons, firstSeen, if_pos h]
      exact ih seen
    · rw [buildSources, if_neg h, List.map_cons, List.map_cons, firstSeen, if_neg h]
      rw [ih]
      rfl

/-- Every built Source comes verbatim from the first member article
carrying its newspaper name. -/
theorem buildSources_first : ∀ (arts : List Article) (seen : List String) (s : Source),
    s ∈ buildSources arts seen →
    s.newspaper ∉ seen ∧
      ∃ a, arts.find? (fun x => nameOf x == s.newspaper) = some a ∧ s = mkSource a := by
  intro arts
  induction arts with
  | nil => intro seen s hs; simp [buildSources] at hs
  | cons a rest ih =>
    intro seen s hs
    by_cases h : nameOf a ∈ seen
    · rw [buildSources, if_pos h] at hs
      obtain ⟨hns, a', hfind, hmk⟩ := ih seen s hs
      refine ⟨hns, a', ?_, hmk⟩
      rw [List.find?_cons_of_neg, hfind]
      intro hp
      exact hns (beq_iff_eq.mp hp ▸ h)
    · rw [buildSources, if_neg h] at hs
      rcases List.mem_cons.mp hs with rfl | hs
      · refine ⟨by simpa [mkSource] using h, a, ?_, rfl⟩
        rw [List.find?_cons_of_pos]
        exact beq_iff_eq.mpr rfl
      · obtain ⟨hns, a', hfind, hmk⟩ := ih _ s hs
        have hne : s.newspaper ≠ nameOf a := fun he => hns (he ▸ List.mem_cons_self _ _)
        refine ⟨fun hmem => hns (List.mem_cons_of_mem _ hmem), a', ?_, hmk⟩
        rw [List.find?_cons_of_neg, hfind]
        intro hp
        exact hne (beq_iff_eq.mp hp).symm

/-- The member-record comprehension preserves length when it succeeds. -/
theorem minisOf_length : ∀ (l : List Article) (r : List MiniArticle),
    minisOf l = some r → r.length = l.length := by
  intro l
  induction l with
  | nil =>
    intro r h
    rw [minisOf] at h
    cases h
    rfl
  | cons a rest ih =>
    intro r h
    rw [minisOf] at h
    cases hm : miniOf a with
    | none => rw [hm] at h; cases h
    | some m =>
      cases hr : minisOf rest with
      | none => rw [hm, hr] at h; cases h
      | some ms =>
        rw [hm, hr] at h
        cases h
        simp [List.length_cons, ih ms hr]

/-- A cluster processed into a merge-bound record keeps the category it was
processed under, has one member record per cluster article, and did not come
from a one-member cluster. -/
theorem processCluster_inr (category : String) (arts0 : List Article) (r : ClusterRec)
    (h : processCluster category arts0 = some (Sum.inr r)) :
    r.category = category ∧ r.articles.length = arts0.length ∧ arts0.length ≠ 1 := by
  rw [processCluster] at h
  by_cases hlen : arts0.length = 1
  · rw [if_pos hlen] at h
    cases h
  · rw [if_neg hlen] at h
    cases hmin : minisOf arts0 with
    | none =>
      rw [hmin] at h
      cases h
    | some minis =>
      rw [hmin] at h
      cases h
      exact ⟨rfl, minisOf_length _ _ hmin, hlen⟩

/-- Every merge-bound cluster record produced by the per-category cluster
loop carries the category it was processed under and at least two member
articles (given that the clusters themselves are non-empty). -/
theorem processClusters_multi : ∀ (category : String) (catArts : List Article)
    (cis : List (List Nat)) (s : List Article) (m : List ClusterRec),
    processClusters category catArts cis = some (s, m) →
    (∀ ci ∈ cis, ci ≠ []) →
    ∀ r ∈ m, r.category = category ∧ 2 ≤ r.articles.length := by
  intro category catArts cis
  induction cis with
  | nil =>
    intro s m h _ r hr
    rw [processClusters] at h
    cases h
    simp at hr
  | cons ci rest ih =>
    intro s m h hne r hr
    rw [processClusters] at h
    cases hpc : processCluster category (ci.map (fun i => catArts.getD i { headline := "", summary := "" })) with
    | none => rw [hpc] at h; cases h
    | some v =>
      cases hps : processClusters category catArts rest with
      | none =>
        rw [hpc, hps] at h
        cases v with
        | inl a => cases h
        | inr r0 => cases h
      | some p =>
        obtain ⟨s', m'⟩ := p
        have ihm := ih s' m' hps (fun x hx => hne x (List.mem_cons_of_mem _ hx))
        rw [hpc, hps] at h
        cases v with
        | inl a =>
          cases h
          exact ihm r hr
        | inr r0 =>
          cases h
          rcases List.mem_cons.mp hr with rfl | hr
          · obtain ⟨hcat, hlen_eq, hne1⟩ := processCluster_inr category _ r hpc
            have hci : ci ≠ [] := hne ci (List.mem_cons_self _ _)
            have hlen : ci.length ≠ 0 := fun h0 => hci (List.length_eq_zero.mp h0)
            rw [List.length_map] at hlen_eq hne1
            exact ⟨hcat, by omega⟩
          · exact ihm r hr

/-- Merge-bound cluster records of one category's stage-1 run carry that
category and at least two members. -/
theorem stage1Category_multi (avail : Bool) (sim : List Article → Nat → Nat → ℚ)
    (c : String) (catArts : List Article) (s : List Article) (m : List ClusterRec)
    (h : stage1Category avail sim c catArts = some (s, m))
    (r : ClusterRec) (hr : r ∈ m) : r.category = c ∧ 2 ≤ r.articles.length :=
  processClusters_multi c catArts _ s m h
    (fun ci hci => cosine_cluster_ne_nil avail (sim catArts) defaultThreshold _ ci hci) r hr

/-- Merge-bound cluster records of a full stage-1 run have at least two
members and carry one of the pool's categories. -/
theorem stage1Cats_multi (avail : Bool) (sim : List Article → Nat → Nat → ℚ)
    (arts : List Article) :
    ∀ (cats : List String) (s : List Article) (m : List ClusterRec),
    stage1Cats avail sim arts cats = some (s, m) →
    ∀ r ∈ m, 2 ≤ r.articles.length ∧ r.category ∈ cats := by
  intro cats
  induction cats with
  | nil =>
    intro s m h r hr
    rw [stage1Cats] at h
    cases h
    simp at hr
  | cons c cs ih =>
    intro s m h r hr
    rw [stage1Cats] at h
    cases h1 : stage1Category avail sim c (articlesInCat arts c) with
    | none => rw [h1] at h; cases h
    | some p1 =>
      obtain ⟨s1, m1⟩ := p1
      cases h2 : stage1Cats avail sim arts cs with
      | none => rw [h1, h2] at h; cases h
      | some p2 =>
        obtain ⟨s2, m2⟩ := p2
        rw [h1, h2] at h
        cases h
        rcases List.mem_append.mp hr with hr | hr
        · obtain ⟨hcat, hlen⟩ := stage1Category_multi avail sim c _ s1 m1 h1 r hr
          exact ⟨hlen, hcat ▸ List.mem_cons_self _ _⟩
        · obtain ⟨hlen, hcat⟩ := ih s2 m2 h2 r hr
          exact ⟨hlen, List.mem_cons_of_mem _ hcat⟩

/-- A deduplicate run makes exactly one merge call when stage 1 succeeds
with a non-empty multi-cluster batch, and zero calls otherwise (empty batch
or a KeyError abort). -/
theorem deduplicate_calls (avail : Bool) (sim : List Article → Nat → Nat → ℚ)
    (model : Nat → List ClusterRec → Except Unit (List Article)) (arts : List Article) :
    (deduplicate avail sim model arts).2 ≤ 1 ∧
    ((deduplicate avail sim model arts).2 = 1 ↔
      ∃ s m, stage1 avail sim arts = some (s, m) ∧ m ≠ []) := by
  cases h1 : stage1 avail sim arts with
  | none =>
    constructor
    · simp [deduplicate, h1]
    · constructor
      · intro h
        simp [deduplicate, h1] at h
      · rintro ⟨s, m, hsm, hm⟩
        exact Option.noConfusion hsm
  | some p =>
    obtain ⟨s, m⟩ := p
    cases m with
    | nil =>
      constructor
      · simp [deduplicate, h1]
      · constructor
        · intro h
          simp [deduplicate, h1] at h
        · rintro ⟨s', m', hsm, hm⟩
          simp only [Option.some.injEq, Prod.mk.injEq] at hsm
          exact absurd hsm.2.symm hm
    | cons r m' =>
      constructor
      · simp [deduplicate, h1, merge_all_clusters]
      · constructor
        · intro _
          exact ⟨s, r :: m', rfl, by simp⟩
        · intro _
          simp [deduplicate, h1, merge_all_clusters]

/-- Claim C1 (amended): one call of `deduplicate` invokes the merge
capability at most once; it invokes it exactly once iff stage 1 completes
without a KeyError and its multi-source batch contains a cluster record
(each of which has at least two members); in every other case — all
clusters singletons, or a stage-1 KeyError abort — zero calls are made. -/
theorem C1_call_budget (avail : Bool) (sim : List Article → Nat → Nat → ℚ)
    (model : Nat → List ClusterRec → Except Unit (List Article)) (arts : List Article) :
    (deduplicate avail sim model arts).2 ≤ 1 ∧
    ((deduplicate avail sim model arts).2 = 1 ↔
      ∃ s m r, stage1 avail sim arts = some (s, m) ∧ r ∈ m ∧ 2 ≤ r.articles.length) := by
  obtain ⟨hle, hiff⟩ := deduplicate_calls avail sim model arts
  refine ⟨hle, hiff.trans ?_⟩
  constructor
  · rintro ⟨s, m, h1, hm⟩
    obtain ⟨r, hr⟩ := List.exists_mem_of_ne_nil m hm
    have hmul := stage1Cats_multi avail sim arts (categoriesOf arts) s m h1 r hr
    exact ⟨s, m, r, h1, hr, hmul.1⟩
  · rintro ⟨s, m, r, h1, hr, _⟩
    refine ⟨s, m, h1, fun h => ?_⟩
    subst h
    simp at hr

/-- Claim C1, counterexample to the strict claim: in this pool the single
category's clustering yields one two-member cluster, yet the run makes
zero merge calls, because building the cluster's member records raises
KeyError on the previously-merged article (its newspaper key was popped). -/
theorem C1_crash_zero_calls :
    cosine_cluster true (simOne (articlesInCat [M1, newY] "India")) defaultThreshold
        (articlesInCat [M1, newY] "India").length = [[0, 1]] ∧
    (deduplicate true simOne modelOkEmpty [M1, newY]).2 = 0 := by decide

/-- Claim C2: the incremental re-merge scenario evaluated on the code.  The
pass-2 pool [M1-as-article, new-article] does cluster into one two-member
cluster, but the pipeline then aborts with a KeyError at `a["newspaper"]`
(result `none`), makes zero merge calls, and produces no MergedArticle at
all — in particular none carrying sources [X, Y]. -/
theorem C2_remergePass_eval :
    deduplicate true simOne modelOkEmpty [M1, newY] = (none, 0) ∧
    M1.sources = some [srcX] ∧ M1.newspaper = none ∧ newY.newspaper = some "Y" ∧
    cosine_cluster true (simOne [M1, newY]) defaultThreshold 2 = [[0, 1]] := by decide

/-- Claim C3: `merge_all_clusters` does not validate the response length.
A one-short parsed response against two submitted clusters is not treated
as total failure: its single element is used (sources of the first cluster
attached) and the second cluster is silently dropped from the output.  A
one-long response, by contrast, reaches the fallback for every cluster only
via the IndexError of the attachment loop. -/
theorem C3_no_length_validation :
    merge_all_clusters modelShort 0 [c1R, c2R] =
      ([{ respArt with sources := some [sA] }], 1) ∧
    ({ respArt with sources := some [sA] } : Article) ≠ fallbackCluster c1R ∧
    merge_all_clusters modelLong 0 [c1R] = ([fallbackCluster c1R], 1) := by decide

/-- Claim C4: the fallback path evaluated on a failing merge call.  It
selects the longest-summary member per cluster (ties to the first
occurrence), emits its headline and summary verbatim and attaches the
cluster's full Source list — but the output articles carry no category key
(category `none`), although the cluster's category is "Business". -/
theorem C4_fallback_eval :
    merge_all_clusters modelErr 0 [cB, cTie] =
      ([{ headline := "H85", summary := "bbbbbbbb", sources := some [sA, sB] },
        { headline := "T1", summary := "xxxx", sources := some [sB] }], 1) ∧
    (merge_all_clusters modelErr 0 [cB, cTie]).1.map Article.category = [none, none] ∧
    cB.category = "Business" ∧ cTie.category = "Business" := by decide

/-- Claim C5: every non-anchor member of a cluster returned by
`cosine_cluster` is similar to the cluster's first element (the anchor) at
level ≥ tau; and membership is decided only against the anchor — in the
concrete run below, articles 1 and 2 share a cluster anchored at 0 while
their mutual similarity is below the threshold. -/
theorem C5_anchor_similarity (avail : Bool) (sim : Nat → Nat → ℚ) (tau : ℚ) (n : Nat)
    (c : List Nat) (hc : c ∈ cosine_cluster avail sim tau n) (j : Nat) (hj : j ∈ c.tail) :
    tau ≤ sim (c.headD 0) j ∧
    (cosine_cluster true simNT defaultThreshold 3 = [[0, 1, 2]] ∧
      simNT 1 2 < defaultThreshold) := by
  refine ⟨?_, by decide, by decide⟩
  cases avail with
  | true =>
    exact clusterGreedy_anchor sim tau (List.range n) [] c
      (by simpa [cosine_cluster] using hc) j hj
  | false =>
    exfalso
    simp only [cosine_cluster, Bool.false_eq_true, if_false, List.mem_map] at hc
    obtain ⟨i, _, rfl⟩ := hc
    simp at hj

theorem C5_anchor_similarity_witness : defaultThreshold ≤ simNT 0 2 :=
  (C5_anchor_similarity true simNT defaultThreshold 3 [0, 1, 2] (by decide) 2 (by decide)).1

/-- Claim C6: the clusters returned by `cosine_cluster` partition the input
indices — every index below n appears in exactly one cluster (count 1 in
the flattened output), in the similarity path and in the degraded singleton
path alike — and the pipeline's category grouping puts an article exactly
in its own category's list, so clusters, which are computed within one
category's list, never span two categories. -/
theorem C6_partition (avail : Bool) (sim : Nat → Nat → ℚ) (tau : ℚ) (n x : Nat)
    (hx : x < n) (arts : List Article) (c : String) (a : Article)
    (ha : a ∈ articlesInCat arts c) :
    (cosine_cluster avail sim tau n).flatten.count x = 1 ∧
    catOf a = c ∧ a ∈ arts ∧ a ∈ articlesInCat arts (catOf a) := by
  have hf := List.mem_filter.mp ha
  have hcat : catOf a = c := by simpa using hf.2
  refine ⟨cosine_cluster_count avail sim tau n x hx, hcat, hf.1, ?_⟩
  rw [hcat]
  exact ha

theorem C6_partition_witness :
    (cosine_cluster false simNT defaultThreshold 3).flatten.count 1 = 1 ∧
    catOf gA = "India" ∧ gA ∈ [gA] ∧ gA ∈ articlesInCat [gA] (catOf gA) :=
  C6_partition false simNT defaultThreshold 3 1 (by decide) [gA] "India" gA (by decide)

/-- Claim C7: the source attribution of a cluster lists one Source per
distinct newspaper name in first-occurrence order (its name list equals the
first-occurrence deduplication of the member name list), every Source is
built verbatim from the first member carrying its name, and the [A, B, A, C]
example yields [A, B, C] with the first A member's fields. -/
theorem C7_source_dedup (arts : List Article) (s : Source)
    (hs : s ∈ buildSources arts []) :
    (buildSources arts []).map Source.newspaper = firstSeen (arts.map nameOf) [] ∧
    (∃ a, arts.find? (fun x => nameOf x == s.newspaper) = some a ∧ s = mkSource a) ∧
    buildSources [aA1, bB, aA2, cC] [] = [mkSource aA1, mkSource bB, mkSource cC] :=
  ⟨buildSources_names arts [], (buildSources_first arts [] s hs).2, by decide⟩

theorem C7_source_dedup_witness :
    (buildSources [aA1, bB, aA2, cC] []).map Source.newspaper =
      firstSeen ([aA1, bB, aA2, cC].map nameOf) [] :=
  (C7_source_dedup [aA1, bB, aA2, cC] (mkSource aA1) (by decide)).1

/-- Claim C8: `load_state` returns the stored state unchanged exactly when
its stored date equals today; a missing file, an unreadable file, or a
different stored date all yield the fresh state — date today, empty
processed-source list, empty article list, is_complete false. -/
theorem C8_state_rollover (stored : Option (Option DigestState)) (today_str : String)
    (s : DigestState) (h : stored = some (some s)) :
    (s.date = some today_str → load_state stored today_str = s) ∧
    (s.date ≠ some today_str → load_state stored today_str = freshState today_str) ∧
    load_state none today_str = freshState today_str ∧
    load_state (some none) today_str = freshState today_str ∧
    freshState today_str = ⟨some today_str, [], [], [], false⟩ := by
  subst h
  refine ⟨?_, ?_, rfl, rfl, rfl⟩
  · intro hd
    simp [load_state, hd]
  · intro hd
    simp [load_state, hd]

theorem C8_state_rollover_witness :
    load_state (some (some staleState)) "2026-10-12" = freshState "2026-10-12" :=
  (C8_state_rollover (some (some staleState)) "2026-10-12" staleState rfl).2.1 (by decide)

/-- Claim C9: on Sunday the expected source set is the fixed catalog minus
Mint and Business Standard, and is_complete is the superset test on that
reduced set — a processed set equal to the reduced set is complete even
though the two excluded papers (which are in the catalog) were never
processed. -/
theorem C9_sunday_reduction (done exp : List String) (p : String)
    (hp : p ∈ exp) (hc : is_complete done exp = true) :
    p ∈ done ∧
    expected_papers true =
      ["The Hindu", "Indian Express", "Financial Express", "Times of India",
       "Hindustan Times", "Economic Times", "Business Line"] ∧
    is_complete
      ["The Hindu", "Indian Express", "Financial Express", "Times of India",
       "Hindustan Times", "Economic Times", "Business Line"] (expected_papers true) = true ∧
    "Mint" ∉ expected_papers true ∧ "Business Standard" ∉ expected_papers true ∧
    "Mint" ∈ EXPECTED_NEWSPAPERS ∧ "Business Standard" ∈ EXPECTED_NEWSPAPERS := by
  refine ⟨?_, by decide, by decide, by decide, by decide, by decide, by decide⟩
  exact of_decide_eq_true (List.all_eq_true.mp hc p hp)

theorem C9_sunday_reduction_witness :
    "The Hindu" ∈
      ["The Hindu", "Indian Express", "Financial Express", "Times of India",
       "Hindustan Times", "Economic Times", "Business Line"] :=
  (C9_sunday_reduction
      ["The Hindu", "Indian Express", "Financial Express", "Times of India",
       "Hindustan Times", "Economic Times", "Business Line"]
      (expected_papers true) "The Hindu" (by decide) (by decide)).1

/-- Claim C10: an article without a category key is grouped under the
default category "India" — its category list is exactly the articles whose
category key is absent or "India" — and every multi-member cluster record
produced from a category's stage-1 run is submitted labeled with that
category (hence "India" for such articles). -/
theorem C10_default_category (arts : List Article) (a : Article) (ha : a ∈ arts)
    (hn : a.category = none) (avail : Bool) (sim : List Article → Nat → Nat → ℚ)
    (c : String) (catArts s : List Article) (m : List ClusterRec) (r : ClusterRec)
    (hsc : stage1Category avail sim c catArts = some (s, m)) (hr : r ∈ m) :
    catOf a = "India" ∧ a ∈ articlesInCat arts "India" ∧
    articlesInCat arts "India" =
      arts.filter (fun x => decide (x.category = none ∨ x.category = some "India")) ∧
    r.category = c := by
  have hcat : catOf a = "India" := by simp [catOf, hn]
  refine ⟨hcat, ?_, ?_, (stage1Category_multi avail sim c catArts s m hsc r hr).1⟩
  · exact List.mem_filter.mpr ⟨ha, by simp [hcat]⟩
  · apply List.filter_congr
    intro x _
    cases hx : x.category with
    | none => simp [catOf, hx]
    | some v => by_cases hv : v = "India" <;> simp [catOf, hx, hv]

theorem C10_default_category_witness :
    catOf gA = "India" :=
  (C10_default_category [gA] gA (by decide) rfl true simOne "India" [gA, noCat]
      [] [rGN] rGN (by decide) (by decide)).1

end NewsAgg
